import Mathlib

/-!
Verification development for the Pangea AI Guard lab client
(`src/api/pangea_api.py`).

The Python module is glue over an HTTP API.  We embed it shallowly:

* JSON-like Python values become the inductive type `Val`; Python `dict`s
  become association lists `List (String × α)` with operations `dictLookup`,
  `dictSet`, `dictUpdate`, `dictHasKey` that mirror `d[k]`, `d[k] = v`,
  `d.update(src)` and `k in d` (replacement keeps the entry's position,
  a fresh key is appended, exactly as CPython dicts behave).
* The network is an oracle `Nat → ReqOutcome`: the outcome of the i-th
  underlying `requests.get`/`requests.post` call (a real response, a raised
  `Timeout`, another raised `RequestException` with its message, or the
  `response is None` case the code guards against).
* `merge_aidr_metadata` is embedded twice: once at value level
  (`merge_aidr_metadata`, ignoring object identity, which is immaterial for
  key/value claims because the source copies the default and its
  `extra_info` before any write), and once over an explicit heap of dict
  objects (`merge_aidr_metadata_heap`) to settle the mutation/aliasing
  claim about `DEFAULT_AIDR_METADATA`.
* `poll_request`'s `while` loop is run on explicit fuel; with the call's
  `maxAttempts + 1` fuel the embedding agrees with the Python loop on every
  run in which the Python loop terminates (the loop can only re-enter while
  the status is "Accepted" and `counter ≠ max_attempts`, and `counter`
  walks 1, 2, 3, …, so with `max_attempts ≥ 1` at most `max_attempts`
  iterations happen).  `PollOutcome.diverge` marks exhausted fuel, i.e.
  runs the Python loop never finishes.

`getpass.getuser()` (the `actor_name` default) is environment input and is
passed in as the `username` argument.
-/

/-- JSON-like Python values appearing in request/response bodies. -/
inductive Val where
  | str : String → Val
  | int : Int → Val
  | dict : List (String × Val) → Val

/-- A Python dict with string keys, as an association list. -/
abbrev PDict := List (String × Val)

/-- `d[k]` as a total lookup: first entry with the given key. -/
def dictLookup {α : Type} : List (String × α) → String → Option α
  | [], _ => none
  | (k, v) :: t, key => if k = key then some v else dictLookup t key

/-- `d[key] = val`: replace in place if the key exists, else append. -/
def dictSet {α : Type} : List (String × α) → String → α → List (String × α)
  | [], key, val => [(key, val)]
  | (k, v) :: t, key, val =>
      if k = key then (key, val) :: t else (k, v) :: dictSet t key val

/-- `key in d`. -/
def dictHasKey {α : Type} (d : List (String × α)) (k : String) : Bool :=
  (dictLookup d k).isSome

/-- `d.update(src)`: fold `d[k] = v` over the entries of `src`. -/
def dictUpdate {α : Type} (d src : List (String × α)) : List (String × α) :=
  src.foldl (fun a kv => dictSet a kv.1 kv.2) d

/-- The nested `extra_info` sub-dict of `DEFAULT_AIDR_METADATA`
(`actor_name` is `getpass.getuser()`, passed in as `username`). -/
def defaultExtraEntries (username : String) : PDict :=
  [("actor_name", Val.str username),
   ("app_name", Val.str "AIGuard-lab")]

/-- The module-level `DEFAULT_AIDR_METADATA` dict, at value level. -/
def DEFAULT_AIDR_METADATA (username : String) : PDict :=
  [("event_type", Val.str "input"),
   ("app_id", Val.str "AIG-lab"),
   ("actor_id", Val.str "test tool"),
   ("llm_provider",  Val.str "test"),
   ("model", Val.str "GPT-6-super"),
   ("model_version", Val.str "6s"),
   ("source_ip", Val.str "74.244.51.54"),
   ("extra_info", Val.dict (defaultExtraEntries username))]

/-- One step of the `for key, value in aidr_config.items()` loop of
`merge_aidr_metadata`: `if key == "extra_info" and isinstance(value, dict):
metadata["extra_info"].update(value) else: metadata[key] = value`.
The inner `_ => metadata` arm is the case `metadata["extra_info"]` is not a
dict, where Python would raise; it is unreachable because `metadata` always
carries `extra_info` as a dict when this runs (see `claim_C6`'s lemmas). -/
def mergeConfigEntry (metadata : PDict) (kv : String × Val) : PDict :=
  if kv.1 = "extra_info" then
    match kv.2 with
    | Val.dict src =>
        match dictLookup metadata "extra_info" with
        | some (Val.dict e) =>
            dictSet metadata "extra_info" (Val.dict (dictUpdate e src))
        | _ => metadata
    | v => dictSet metadata kv.1 v
  else dictSet metadata kv.1 kv.2

/-- The `metadata` dict of `merge_aidr_metadata` after the override loop:
`metadata = DEFAULT_AIDR_METADATA.copy()`, then
`metadata["extra_info"] = DEFAULT_AIDR_METADATA["extra_info"].copy()`
(both identities at value level), then `if aidr_config:` (None and the
empty dict are falsy) the override loop. -/
def overriddenMetadata (username : String) (aidrConfig : Option PDict) : PDict :=
  match aidrConfig with
  | none => DEFAULT_AIDR_METADATA username
  | some cfg =>
      if cfg.isEmpty then DEFAULT_AIDR_METADATA username
      else cfg.foldl mergeConfigEntry (DEFAULT_AIDR_METADATA username)

/-- One step of the final loop of `merge_aidr_metadata`:
`if key not in data: data[key] = value`. -/
def insertAbsent {α : Type} (d : List (String × α)) (kv : String × α) :
    List (String × α) :=
  if dictHasKey d kv.1 then d else dictSet d kv.1 kv.2

/-- `merge_aidr_metadata(data, aidr_config)` at value level: after building
`metadata`, run `for key, value in metadata.items(): if key not in data:
data[key] = value` and return `data`. -/
def merge_aidr_metadata (username : String) (data : PDict)
    (aidrConfig : Option PDict) : PDict :=
  (overriddenMetadata username aidrConfig).foldl insertAbsent data

/-- An HTTP response: its status code and (already JSON-decoded) body, the
two pieces the module reads (`response.status_code` is only ever set, and
`response.json()` only ever read). -/
structure HttpResponse where
  status_code : Nat
  body : Val

/-- `create_error_response(status_code, message)`: a synthesized response
whose body is the JSON object `{"status": status_code, "message": message}`. -/
def create_error_response (statusCode : Nat) (message : String) : HttpResponse :=
  { status_code := statusCode,
    body := Val.dict [("status", Val.int (statusCode : Int)),
                      ("message", Val.str message)] }

/-- Outcome of one underlying `requests.post`/`requests.get` call:
a response, a raised `requests.exceptions.Timeout`, another raised
`requests.exceptions.RequestException` (with its rendered text `{e}`), or
the `response is None` case the wrappers guard against. -/
inductive ReqOutcome where
  | ok : HttpResponse → ReqOutcome
  | timeout : ReqOutcome
  | reqError : String → ReqOutcome
  | noResponse : ReqOutcome

/-- `pangea_post_api(service, endpoint, data, …)`.  Returned pair: the
payload actually posted (`merge_aidr_metadata(data, aidr_config)` when
`service == "aidr"`, else `data` unchanged) and the response the function
returns.  URL joining and header construction have no observable effect on
the returned value and are not modeled.  The wrapper never returns None:
`if response is None` synthesizes a 500, `except Timeout` a 408, and
`except RequestException as e` a 400 with `f"Bad Request: {e}"`. -/
def pangea_post_api (service username : String) (data : PDict)
    (aidrConfig : Option PDict) (outcome : ReqOutcome) : PDict × HttpResponse :=
  let payload :=
    if service = "aidr" then merge_aidr_metadata username data aidrConfig
    else data
  (payload,
    match outcome with
    | ReqOutcome.ok r => r
    | ReqOutcome.noResponse =>
        create_error_response 500 "Internal server error: failed to fetch data"
    | ReqOutcome.timeout => create_error_response 408 "Request Timeout"
    | ReqOutcome.reqError e =>
        create_error_response 400 ("Bad Request: " ++ e))

/-- `pangea_get_api(endpoint, …)`: returns `requests.get`'s response
as-is (including a hypothetical None, i.e. `Option.none` — no 500 synthesis
on the GET path), a synthesized 408 on `Timeout`, and a synthesized 400 on
any other `RequestException`. -/
def pangea_get_api (outcome : ReqOutcome) : Option HttpResponse :=
  match outcome with
  | ReqOutcome.ok r => some r
  | ReqOutcome.noResponse => none
  | ReqOutcome.timeout => some (create_error_response 408 "Request Timeout")
  | ReqOutcome.reqError e =>
      some (create_error_response 400 ("Bad Request: " ++ e))

/-- `response.json()["status"]` as read by `poll_request`: `some` the status
field of a dict body, `none` when the body is not a dict carrying
`"status"` (where Python raises instead of returning). -/
def getStatus (r : HttpResponse) : Option Val :=
  match r.body with
  | Val.dict d => dictLookup d "status"
  | _ => none

/-- Python `status_code == s` for a string literal `s`: equal strings
compare equal, any non-string value (e.g. the `int` statuses of synthesized
error bodies) compares unequal. -/
def isStrv (s : String) (v : Val) : Bool :=
  match v with
  | Val.str t => decide (t = s)
  | _ => false

/-- Result of `poll_request`: the returned `(status_code, response)` pair
plus the number of GET requests issued; `exc` marks a run in which
`response.json()["status"]` raised (body without a `"status"` field);
`diverge` marks fuel exhaustion, i.e. a run in which the Python `while`
loop never exits (only possible when `max_attempts` is unreachable from
`counter = 1`, e.g. `max_attempts = 0`). -/
inductive PollOutcome where
  | ret : Val → Option HttpResponse → Nat → PollOutcome
  | exc : Nat → PollOutcome
  | diverge : Nat → PollOutcome

/-- Number of GET requests issued during a poll. -/
def pollGets : PollOutcome → Nat
  | PollOutcome.ret _ _ g => g
  | PollOutcome.exc g => g
  | PollOutcome.diverge g => g

/-- Whether the poll ran out of fuel (Python: the loop never exits). -/
def isDiverge : PollOutcome → Bool
  | PollOutcome.diverge _ => true
  | _ => false

/-- The `while status_code == "Accepted":` loop of `poll_request`, with
explicit fuel.  Arguments after the oracle and `max_attempts`: remaining
fuel, `counter`, GETs issued so far, `status_code`, `response`.  Each
iteration: `response = pangea_request(...)` (one GET, `pangea_get_api` on
the next oracle outcome); `if response is None: break`;
`status_code = response.json()["status"]`; `if status_code == "Success":
break`; `elif status_code != "Accepted": break`; `if counter ==
max_attempts: break`; `time.sleep(5); counter += 1` and loop.  (`sleep` and
the `verbose` printing have no effect on the result.) -/
def pollAux (oracle : Nat → ReqOutcome) (maxAttempts : Nat) :
    Nat → Nat → Nat → Val → Option HttpResponse → PollOutcome
  | 0, _, gets, status, resp =>
      if isStrv "Accepted" status then PollOutcome.diverge gets
      else PollOutcome.ret status resp gets
  | fuel + 1, counter, gets, status, resp =>
      if isStrv "Accepted" status then
        match pangea_get_api (oracle gets) with
        | none => PollOutcome.ret status none (gets + 1)
        | some r =>
            match getStatus r with
            | none => PollOutcome.exc (gets + 1)
            | some s =>
                if isStrv "Success" s then PollOutcome.ret s (some r) (gets + 1)
                else if isStrv "Accepted" s then
                  if counter = maxAttempts then
                    PollOutcome.ret s (some r) (gets + 1)
                  else pollAux oracle maxAttempts fuel (counter + 1) (gets + 1)
                    s (some r)
                else PollOutcome.ret s (some r) (gets + 1)
      else PollOutcome.ret status resp gets

/-- `poll_request(request_id, max_attempts, …)`: `status_code = "Accepted";
response = None; counter = 1`, then the loop, then
`return status_code, response`.  The i-th GET observes `oracle i`.
Fuel `maxAttempts + 1` is exact: see the module docstring. -/
def poll_request (oracle : Nat → ReqOutcome) (maxAttempts : Nat) : PollOutcome :=
  pollAux oracle maxAttempts (maxAttempts + 1) 1 0 (Val.str "Accepted") none

/-!
Heap-level embedding of `merge_aidr_metadata`, used for the claim about
mutation of the module-level `DEFAULT_AIDR_METADATA`.  Dicts are heap
objects at `Nat` addresses; dict entries hold scalars or references to
other dict objects (the only mutable values the module manipulates are
dicts).  `DEFAULT_AIDR_METADATA` lives at address 0 and its nested
`extra_info` dict at address 1, matching the module state set up at import
time.
-/

/-- A value stored in a dict object on the heap: an immutable scalar or a
reference to another dict object.  `isinstance(value, dict)` is "is a
reference" here, since every heap object in this model is a dict. -/
inductive HVal where
  | str : String → HVal
  | int : Int → HVal
  | ref : Nat → HVal
deriving DecidableEq

/-- A dict object's entries. -/
abbrev HDict := List (String × HVal)

/-- Read address `a` out of a store (unallocated addresses read as empty;
theorem inputs only read allocated ones). -/
def getAddr : List (Nat × HDict) → Nat → HDict
  | [], _ => []
  | (b, d) :: t, a => if b = a then d else getAddr t a

/-- Overwrite the object at address `a` (no-op when unallocated; writes in
the embedded code only target allocated addresses). -/
def setAddr : List (Nat × HDict) → Nat → HDict → List (Nat × HDict)
  | [], _, _ => []
  | (b, d) :: t, a, nd => if b = a then (b, nd) :: t else (b, d) :: setAddr t a nd

/-- Whether an address is allocated in a store. -/
def hasAddr : List (Nat × HDict) → Nat → Bool
  | [], _ => false
  | (b, _) :: t, a => if b = a then true else hasAddr t a

/-- A heap of dict objects plus the next fresh address. -/
structure Heap where
  store : List (Nat × HDict)
  next : Nat
deriving DecidableEq

/-- Dereference a dict object. -/
def Heap.get (h : Heap) (a : Nat) : HDict := getAddr h.store a

/-- Mutate a dict object in place. -/
def Heap.set (h : Heap) (a : Nat) (d : HDict) : Heap :=
  ⟨setAddr h.store a d, h.next⟩

/-- Allocate a fresh dict object (`dict.copy()` allocates). -/
def Heap.alloc (h : Heap) (d : HDict) : Heap × Nat :=
  (⟨h.store ++ [(h.next, d)], h.next + 1⟩, h.next)

/-- `isinstance(value, dict)` over heap values. -/
def isDictVal : HVal → Bool
  | HVal.ref _ => true
  | _ => false

/-- One step of the override loop of `merge_aidr_metadata`, heap level.
In the `extra_info`-and-dict branch, `metadata["extra_info"].update(value)`
mutates the object `metadata["extra_info"]` currently references; the
fall-through arm is `metadata["extra_info"]` not holding a dict, where
Python would raise (unreachable: it holds the fresh copy made before the
loop, and only a scalar can ever replace it). -/
def applyConfigEntry (mAddr : Nat) (h : Heap) (kv : String × HVal) : Heap :=
  if kv.1 = "extra_info" ∧ isDictVal kv.2 = true then
    match dictLookup (h.get mAddr) "extra_info", kv.2 with
    | some (HVal.ref t), HVal.ref src =>
        h.set t (dictUpdate (h.get t) (h.get src))
    | _, _ => h
  else h.set mAddr (dictSet (h.get mAddr) kv.1 kv.2)

/-- `merge_aidr_metadata(data, aidr_config)` over the heap.  `dataAddr` is
the address of the caller's `data` dict, `aidrConfig` the address of the
override dict (if any).  Steps map one-to-one onto the source lines:
copy the default (`h1`), copy its `extra_info` and hook the copy into the
metadata (`h2`, `h3`), run the override loop if `aidr_config` is truthy
(`h4`), then insert the missing keys into `data` (`h5`) and return `data`
itself.  Returns `none` when `DEFAULT_AIDR_METADATA["extra_info"]` is
missing or not a dict, where Python raises — unreachable from the module's
actual state (addresses 0/1 below). -/
def merge_aidr_metadata_heap (h0 : Heap) (dataAddr : Nat)
    (aidrConfig : Option Nat) : Option (Heap × Nat) :=
  let al1 := h0.alloc (h0.get 0)
  let h1 := al1.1
  let mAddr := al1.2
  match dictLookup (h1.get 0) "extra_info" with
  | some (HVal.ref ea) =>
      let al2 := h1.alloc (h1.get ea)
      let h2 := al2.1
      let ec := al2.2
      let h3 := h2.set mAddr (dictSet (h2.get mAddr) "extra_info" (HVal.ref ec))
      let h4 :=
        match aidrConfig with
        | none => h3
        | some cfgAddr =>
            if (h3.get cfgAddr).isEmpty then h3
            else (h3.get cfgAddr).foldl (applyConfigEntry mAddr) h3
      let h5 := (h4.get mAddr).foldl
        (fun h kv =>
          if dictHasKey (h.get dataAddr) kv.1 then h
          else h.set dataAddr (dictSet (h.get dataAddr) kv.1 kv.2)) h4
      some (h5, dataAddr)
  | _ => none

/-- `DEFAULT_AIDR_METADATA`'s top-level entries as a heap object: the
nested `extra_info` dict is a reference to the object at address 1. -/
def defaultTopHDict : HDict :=
  [("event_type", HVal.str "input"),
   ("app_id", HVal.str "AIG-lab"),
   ("actor_id", HVal.str "test tool"),
   ("llm_provider", HVal.str "test"),
   ("model", HVal.str "GPT-6-super"),
   ("model_version", HVal.str "6s"),
   ("source_ip", HVal.str "74.244.51.54"),
   ("extra_info", HVal.ref 1)]

/-- The nested `extra_info` heap object. -/
def defaultExtraHDict (username : String) : HDict :=
  [("actor_name", HVal.str username),
   ("app_name", HVal.str "AIGuard-lab")]

/-- Lay out caller-owned dict objects at consecutive addresses from `n`. -/
def mkObjs : Nat → List HDict → List (Nat × HDict)
  | _, [] => []
  | n, d :: t => (n, d) :: mkObjs (n + 1) t

/-- The module heap: `DEFAULT_AIDR_METADATA` at address 0, its nested
`extra_info` at address 1, and the caller's dict objects (`data`,
`aidr_config`, anything their entries reference) at addresses 2, 3, …. -/
def standardHeap (username : String) (objs : List HDict) : Heap :=
  ⟨(0, defaultTopHDict) :: (1, defaultExtraHDict username) :: mkObjs 2 objs,
   2 + objs.length⟩

/-- A response whose JSON body carries status "Accepted" (shape of the
service's 202 polling answer); used to instantiate witnesses. -/
def acceptedResp : HttpResponse :=
  ⟨202, Val.dict [("status", Val.str "Accepted")]⟩

/-- A response whose JSON body carries status "Success". -/
def successResp : HttpResponse :=
  ⟨200, Val.dict [("status", Val.str "Success")]⟩

/-- A response whose JSON body carries status "Failed". -/
def failedResp : HttpResponse :=
  ⟨400, Val.dict [("status", Val.str "Failed")]⟩

/-! ## Association-list (Python dict) lemmas -/

theorem dictLookup_dictSet_self {α : Type} (d : List (String × α)) (k : String)
    (v : α) : dictLookup (dictSet d k v) k = some v := by
  induction d with
  | nil => simp [dictSet, dictLookup]
  | cons kv t ih =>
      by_cases h : kv.1 = k
      · simp [dictSet, dictLookup, h]
      · simp [dictSet, dictLookup, h, ih]

theorem dictLookup_dictSet_ne {α : Type} (d : List (String × α)) (k k' : String)
    (v : α) (h : k' ≠ k) :
    dictLookup (dictSet d k v) k' = dictLookup d k' := by
  have hne : ¬k = k' := fun hh => h hh.symm
  induction d with
  | nil => simp [dictSet, dictLookup, hne]
  | cons kv t ih =>
      obtain ⟨k0, v0⟩ := kv
      by_cases hk : k0 = k
      · subst hk
        simp [dictSet, dictLookup, hne]
      · simp [dictSet, dictLookup, hk, ih]

theorem dictHasKey_dictSet_of_hasKey {α : Type} (d : List (String × α))
    (k K : String) (v : α) (h : dictHasKey d K = true) :
    dictHasKey (dictSet d k v) K = true := by
  by_cases hk : k = K
  · subst hk
    unfold dictHasKey
    rw [dictLookup_dictSet_self]
    rfl
  · unfold dictHasKey at h ⊢
    rw [dictLookup_dictSet_ne d k K v (fun hh => hk hh.symm)]
    exact h

theorem dictLookup_eq_none_of_not_mem {α : Type} (d : List (String × α))
    (k : String) (h : k ∉ d.map Prod.fst) : dictLookup d k = none := by
  induction d with
  | nil => rfl
  | cons kv t ih =>
      simp only [List.map_cons, List.mem_cons, not_or] at h
      simp only [dictLookup]
      rw [if_neg (fun hh => h.1 hh.symm)]
      exact ih h.2

/-! ## The final `if key not in data: data[key] = value` loop -/

theorem dictLookup_insertLoop_of_hasKey {α : Type} (m : List (String × α)) :
    ∀ (d : List (String × α)) (K : String), dictHasKey d K = true →
      dictLookup (m.foldl insertAbsent d) K = dictLookup d K := by
  induction m with
  | nil => intro d K _; rfl
  | cons kv t ih =>
      intro d K h
      show dictLookup (t.foldl insertAbsent (insertAbsent d kv)) K = _
      cases hk : dictHasKey d kv.1 with
      | true => rw [show insertAbsent d kv = d from by simp [insertAbsent, hk]]
                exact ih d K h
      | false =>
          have hne : kv.1 ≠ K := by
            intro hh; rw [hh] at hk; rw [h] at hk; cases hk
          have hset : insertAbsent d kv = dictSet d kv.1 kv.2 := by
            simp [insertAbsent, hk]
          rw [hset]
          have hl := dictLookup_dictSet_ne d kv.1 K kv.2 (fun hh => hne hh.symm)
          have hh : dictHasKey (dictSet d kv.1 kv.2) K = true := by
            unfold dictHasKey
            rw [hl]
            exact h
          rw [ih _ K hh, hl]

theorem dictLookup_insertLoop_of_absent {α : Type} (m : List (String × α)) :
    ∀ (d : List (String × α)) (K : String), dictHasKey d K = false →
      dictLookup (m.foldl insertAbsent d) K = dictLookup m K := by
  induction m with
  | nil =>
      intro d K h
      show dictLookup d K = none
      unfold dictHasKey at h
      cases ho : dictLookup d K
      · rfl
      · rw [ho] at h; cases h
  | cons kv t ih =>
      intro d K h
      show dictLookup (t.foldl insertAbsent (insertAbsent d kv)) K = _
      by_cases hkK : kv.1 = K
      · have hk : dictHasKey d kv.1 = false := by rw [hkK]; exact h
        have hset : insertAbsent d kv = dictSet d kv.1 kv.2 := by
          simp [insertAbsent, hk]
        rw [hset]
        have hh : dictHasKey (dictSet d kv.1 kv.2) K = true := by
          unfold dictHasKey
          rw [hkK, dictLookup_dictSet_self]
          rfl
        rw [dictLookup_insertLoop_of_hasKey t _ K hh]
        rw [hkK, dictLookup_dictSet_self]
        simp [dictLookup, hkK]
      · cases hk : dictHasKey d kv.1 with
        | true =>
            rw [show insertAbsent d kv = d from by simp [insertAbsent, hk]]
            rw [ih d K h]
            simp [dictLookup, hkK]
        | false =>
            have hset : insertAbsent d kv = dictSet d kv.1 kv.2 := by
              simp [insertAbsent, hk]
            rw [hset]
            have hl := dictLookup_dictSet_ne d kv.1 K kv.2
              (fun hh => hkK hh.symm)
            have hh : dictHasKey (dictSet d kv.1 kv.2) K = false := by
              unfold dictHasKey
              rw [hl]
              exact h
            rw [ih _ K hh]
            simp [dictLookup, hkK]

theorem merge_lookup_of_present (username : String) (data : PDict)
    (cfg : Option PDict) (K : String) (h : dictHasKey data K = true) :
    dictLookup (merge_aidr_metadata username data cfg) K = dictLookup data K :=
  dictLookup_insertLoop_of_hasKey _ data K h

theorem merge_lookup_of_absent (username : String) (data : PDict)
    (cfg : Option PDict) (K : String) (h : dictHasKey data K = false) :
    dictLookup (merge_aidr_metadata username data cfg) K
      = dictLookup (overriddenMetadata username cfg) K :=
  dictLookup_insertLoop_of_absent _ data K h

/-! ## The override loop -/

theorem dictHasKey_mergeConfigEntry (m : PDict) (kv : String × Val) (K : String)
    (h : dictHasKey m K = true) :
    dictHasKey (mergeConfigEntry m kv) K = true := by
  unfold mergeConfigEntry
  split
  · split
    · split
      · exact dictHasKey_dictSet_of_hasKey _ _ _ _ h
      · exact h
    · exact dictHasKey_dictSet_of_hasKey _ _ _ _ h
  · exact dictHasKey_dictSet_of_hasKey _ _ _ _ h

theorem dictHasKey_configLoop (cfg : PDict) :
    ∀ (m : PDict) (K : String), dictHasKey m K = true →
      dictHasKey (cfg.foldl mergeConfigEntry m) K = true := by
  induction cfg with
  | nil => intro m K h; exact h
  | cons kv t ih =>
      intro m K h
      exact ih _ K (dictHasKey_mergeConfigEntry m kv K h)

theorem dictHasKey_overriddenMetadata (username : String) (cfg : Option PDict)
    (K : String) (h : dictHasKey (DEFAULT_AIDR_METADATA username) K = true) :
    dictHasKey (overriddenMetadata username cfg) K = true := by
  cases cfg with
  | none => exact h
  | some c =>
      simp only [overriddenMetadata]
      by_cases hc : c.isEmpty = true
      · rw [if_pos hc]
        exact h
      · rw [if_neg hc]
        exact dictHasKey_configLoop c _ K h

/-- Claim C1: for every target mapping `data` and optional override mapping
`aidr_config`, `merge_aidr_metadata` returns a mapping in which every
default metadata key absent from `data` is present, with its (possibly
overridden) value — the value the metadata dict carries after the override
pass, which with no override is the plain default value — and every key
already present in `data` keeps exactly the value it had before the merge. -/
theorem claim_C1 (username : String) (data : PDict) (cfg : Option PDict)
    (K : String) :
    (dictHasKey data K = false →
      dictHasKey (DEFAULT_AIDR_METADATA username) K = true →
      (dictLookup (merge_aidr_metadata username data cfg) K).isSome = true ∧
      dictLookup (merge_aidr_metadata username data cfg) K
        = dictLookup (overriddenMetadata username cfg) K ∧
      (cfg = none → dictLookup (merge_aidr_metadata username data cfg) K
        = dictLookup (DEFAULT_AIDR_METADATA username) K))
    ∧ (dictHasKey data K = true →
      dictLookup (merge_aidr_metadata username data cfg) K
        = dictLookup data K) := by
  constructor
  · intro h1 h2
    have he := merge_lookup_of_absent username data cfg K h1
    refine ⟨?_, he, ?_⟩
    · rw [he]
      exact dictHasKey_overriddenMetadata username cfg K h2
    · intro hc
      subst hc
      exact he
  · exact merge_lookup_of_present username data cfg K

/-- Witness for C1: merging into `{"model": "mine"}` with no override
inserts the absent default key `event_type` with its default value and
leaves the present key `model` untouched. -/
theorem claim_C1_witness :
    dictLookup (merge_aidr_metadata "alice" [("model", Val.str "mine")] none)
        "event_type" = some (Val.str "input")
    ∧ dictLookup (merge_aidr_metadata "alice" [("model", Val.str "mine")] none)
        "model" = some (Val.str "mine") := by
  constructor
  · exact (((claim_C1 "alice" [("model", Val.str "mine")] none
      "event_type").1 rfl rfl).2.2 rfl).trans rfl
  · exact ((claim_C1 "alice" [("model", Val.str "mine")] none
      "model").2 rfl).trans rfl

/-! ## `extra_info` merging -/

theorem configLoop_extra_of_not_mem (rest : PDict) :
    ∀ (m : PDict), "extra_info" ∉ rest.map Prod.fst →
      dictLookup (rest.foldl mergeConfigEntry m) "extra_info"
        = dictLookup m "extra_info" := by
  induction rest with
  | nil => intro m _; rfl
  | cons kv t ih =>
      intro m h
      simp only [List.map_cons, List.mem_cons, not_or] at h
      have hk : kv.1 ≠ "extra_info" := fun hh => h.1 hh.symm
      show dictLookup (t.foldl mergeConfigEntry (mergeConfigEntry m kv))
        "extra_info" = _
      rw [ih _ h.2]
      have hme : mergeConfigEntry m kv = dictSet m kv.1 kv.2 := by
        simp [mergeConfigEntry, hk]
      rw [hme, dictLookup_dictSet_ne m kv.1 "extra_info" kv.2
        (fun hh => hk hh.symm)]

theorem configLoop_extra_merge (cfg : PDict) :
    ∀ (m e src : PDict), (cfg.map Prod.fst).Nodup →
      dictLookup cfg "extra_info" = some (Val.dict src) →
      dictLookup m "extra_info" = some (Val.dict e) →
      dictLookup (cfg.foldl mergeConfigEntry m) "extra_info"
        = some (Val.dict (dictUpdate e src)) := by
  induction cfg with
  | nil =>
      intro m e src _ hc _
      cases hc
  | cons kv t ih =>
      intro m e src hnd hc hm
      simp only [List.map_cons, List.nodup_cons] at hnd
      by_cases hk : kv.1 = "extra_info"
      · have hv : kv.2 = Val.dict src := by
          have : dictLookup (kv :: t) "extra_info" = some kv.2 := by
            simp [dictLookup, hk]
          rw [this] at hc
          exact Option.some.inj hc
        have hme : mergeConfigEntry m kv
            = dictSet m "extra_info" (Val.dict (dictUpdate e src)) := by
          simp [mergeConfigEntry, hk, hv, hm]
        show dictLookup (t.foldl mergeConfigEntry (mergeConfigEntry m kv))
          "extra_info" = _
        rw [configLoop_extra_of_not_mem t _ (hk ▸ hnd.1), hme,
          dictLookup_dictSet_self]
      · have hc' : dictLookup t "extra_info" = some (Val.dict src) := by
          simpa [dictLookup, hk] using hc
        have hme : mergeConfigEntry m kv = dictSet m kv.1 kv.2 := by
          simp [mergeConfigEntry, hk]
        have hm' : dictLookup (mergeConfigEntry m kv) "extra_info"
            = some (Val.dict e) := by
          rw [hme, dictLookup_dictSet_ne m kv.1 "extra_info" kv.2
            (fun hh => hk hh.symm)]
          exact hm
        exact ih _ e src hnd.2 hc' hm'

theorem dictLookup_dictUpdate_of_absent {α : Type} (ov : List (String × α)) :
    ∀ (e : List (String × α)) (k : String), dictHasKey ov k = false →
      dictLookup (dictUpdate e ov) k = dictLookup e k := by
  induction ov with
  | nil => intro e k _; rfl
  | cons kv t ih =>
      intro e k h
      by_cases hk : kv.1 = k
      · exfalso
        unfold dictHasKey at h
        rw [show dictLookup (kv :: t) k = some kv.2 from by
          simp [dictLookup, hk]] at h
        cases h
      · have h' : dictHasKey t k = false := by
          unfold dictHasKey at h ⊢
          rwa [show dictLookup (kv :: t) k = dictLookup t k from by
            simp [dictLookup, hk]] at h
        show dictLookup (dictUpdate (dictSet e kv.1 kv.2) t) k = _
        rw [ih _ k h', dictLookup_dictSet_ne e kv.1 k kv.2
          (fun hh => hk hh.symm)]

theorem dictLookup_dictUpdate_of_mem {α : Type} (ov : List (String × α)) :
    ∀ (e : List (String × α)) (k : String) (v : α), (ov.map Prod.fst).Nodup →
      dictLookup ov k = some v → dictLookup (dictUpdate e ov) k = some v := by
  induction ov with
  | nil => intro e k v _ hv; cases hv
  | cons kv t ih =>
      intro e k v hnd hv
      simp only [List.map_cons, List.nodup_cons] at hnd
      by_cases hk : kv.1 = k
      · have hveq : kv.2 = v := by
          rw [show dictLookup (kv :: t) k = some kv.2 from by
            simp [dictLookup, hk]] at hv
          exact Option.some.inj hv
        have ht : dictHasKey t k = false := by
          unfold dictHasKey
          rw [dictLookup_eq_none_of_not_mem t k (hk ▸ hnd.1)]
          rfl
        show dictLookup (dictUpdate (dictSet e kv.1 kv.2) t) k = _
        rw [dictLookup_dictUpdate_of_absent t _ k ht, hk, hveq,
          dictLookup_dictSet_self]
      · have hv' : dictLookup t k = some v := by
          simpa [dictLookup, hk] using hv
        exact ih _ k v hnd.2 hv'

/-- Claim C6: for every target mapping lacking `extra_info` and every
override mapping whose `extra_info` value is a mapping, the merged result's
`extra_info` is the default `extra_info` updated with the override's
entries: it contains every override entry, and every default `extra_info`
entry whose key the override does not mention.  (The key-uniqueness
hypotheses state that the association lists stand for Python dicts.) -/
theorem claim_C6 (username : String) (data : PDict) (cfg ov : PDict)
    (h1 : dictHasKey data "extra_info" = false)
    (h2 : (cfg.map Prod.fst).Nodup)
    (h3 : dictLookup cfg "extra_info" = some (Val.dict ov))
    (h4 : (ov.map Prod.fst).Nodup) :
    dictLookup (merge_aidr_metadata username data (some cfg)) "extra_info"
      = some (Val.dict (dictUpdate (defaultExtraEntries username) ov))
    ∧ (∀ k v, dictLookup ov k = some v →
        dictLookup (dictUpdate (defaultExtraEntries username) ov) k = some v)
    ∧ (∀ k v, dictLookup (defaultExtraEntries username) k = some v →
        dictHasKey ov k = false →
        dictLookup (dictUpdate (defaultExtraEntries username) ov) k
          = some v) := by
  have hne : cfg.isEmpty = false := by
    cases cfg with
    | nil => cases h3
    | cons kv t => rfl
  have hov : overriddenMetadata username (some cfg)
      = cfg.foldl mergeConfigEntry (DEFAULT_AIDR_METADATA username) := by
    simp [overriddenMetadata, hne]
  have hm : dictLookup (DEFAULT_AIDR_METADATA username) "extra_info"
      = some (Val.dict (defaultExtraEntries username)) := rfl
  refine ⟨?_, fun k v hv => dictLookup_dictUpdate_of_mem ov _ k v h4 hv,
    fun k v hd hnk =>
      (dictLookup_dictUpdate_of_absent ov _ k hnk).trans hd⟩
  rw [merge_lookup_of_absent username data (some cfg) "extra_info" h1, hov]
  exact configLoop_extra_merge cfg _ _ ov h2 h3 hm

/-- Witness for C6: overriding `extra_info` with `{a: 1}` keeps the default
entries `actor_name`/`app_name` and adds `a` mapped to 1. -/
theorem claim_C6_witness :
    dictLookup (merge_aidr_metadata "alice" [("messages", Val.str "hi")]
        (some [("extra_info", Val.dict [("a", Val.int 1)])])) "extra_info"
      = some (Val.dict [("actor_name", Val.str "alice"),
          ("app_name", Val.str "AIGuard-lab"), ("a", Val.int 1)])
    ∧ dictLookup (dictUpdate (defaultExtraEntries "alice")
        [("a", Val.int 1)]) "a" = some (Val.int 1)
    ∧ dictLookup (dictUpdate (defaultExtraEntries "alice")
        [("a", Val.int 1)]) "actor_name" = some (Val.str "alice") := by
  have h := claim_C6 "alice" [("messages", Val.str "hi")]
    [("extra_info", Val.dict [("a", Val.int 1)])] [("a", Val.int 1)]
    rfl (by simp) rfl (by simp)
  exact ⟨h.1.trans rfl, h.2.1 "a" (Val.int 1) rfl,
    h.2.2 "actor_name" (Val.str "alice") rfl rfl⟩

/-! ## HTTP wrapper error handling -/

/-- Claim C2: for both `pangea_post_api` and `pangea_get_api` and every
input, a network timeout yields a returned (not raised) response with
status code 408 and JSON body `{"status": 408, "message": "Request
Timeout"}`; any other request-level failure yields a returned response with
status code 400 whose body message embeds the exception text; and on
success the underlying response comes back unmodified. -/
theorem claim_C2 (service username : String) (data : PDict)
    (cfg : Option PDict) (e : String) (r : HttpResponse) :
    (pangea_post_api service username data cfg ReqOutcome.timeout).2
      = create_error_response 408 "Request Timeout"
    ∧ pangea_get_api ReqOutcome.timeout
      = some (create_error_response 408 "Request Timeout")
    ∧ (create_error_response 408 "Request Timeout").status_code = 408
    ∧ (create_error_response 408 "Request Timeout").body
      = Val.dict [("status", Val.int 408),
          ("message", Val.str "Request Timeout")]
    ∧ (pangea_post_api service username data cfg (ReqOutcome.reqError e)).2
      = create_error_response 400 ("Bad Request: " ++ e)
    ∧ pangea_get_api (ReqOutcome.reqError e)
      = some (create_error_response 400 ("Bad Request: " ++ e))
    ∧ (create_error_response 400 ("Bad Request: " ++ e)).status_code = 400
    ∧ (∃ pre, (create_error_response 400 ("Bad Request: " ++ e)).body
        = Val.dict [("status", Val.int 400), ("message", Val.str (pre ++ e))])
    ∧ (pangea_post_api service username data cfg (ReqOutcome.ok r)).2 = r
    ∧ pangea_get_api (ReqOutcome.ok r) = some r :=
  ⟨rfl, rfl, rfl, rfl, rfl, rfl, rfl, ⟨"Bad Request: ", rfl⟩, rfl, rfl⟩

/-- Claim C7: when the underlying POST call yields no response object,
`pangea_post_api` returns a synthesized response with status code 500 whose
body message begins "Internal server error", while `pangea_get_api`
performs no such synthesis and returns the absent response as-is. -/
theorem claim_C7 (service username : String) (data : PDict)
    (cfg : Option PDict) :
    (pangea_post_api service username data cfg ReqOutcome.noResponse).2
      = create_error_response 500 "Internal server error: failed to fetch data"
    ∧ (pangea_post_api service username data cfg
        ReqOutcome.noResponse).2.status_code = 500
    ∧ (pangea_post_api service username data cfg ReqOutcome.noResponse).2.body
      = Val.dict [("status", Val.int 500),
          ("message", Val.str ("Internal server error"
            ++ ": failed to fetch data"))]
    ∧ pangea_get_api ReqOutcome.noResponse = none :=
  ⟨rfl, rfl, rfl, rfl⟩

/-! ## The polling loop -/

theorem pollAux_resp_congr (oracle : Nat → ReqOutcome) (m f c g : Nat)
    (r1 r2 : Option HttpResponse) :
    pollAux oracle m (f + 1) c g (Val.str "Accepted") r1
      = pollAux oracle m (f + 1) c g (Val.str "Accepted") r2 := rfl

theorem pollAux_step_cont (oracle : Nat → ReqOutcome) (m f c g : Nat)
    (r : HttpResponse) (resp : Option HttpResponse)
    (ho : pangea_get_api (oracle g) = some r)
    (hs : getStatus r = some (Val.str "Accepted")) (hc : c ≠ m) :
    pollAux oracle m (f + 1) c g (Val.str "Accepted") resp
      = pollAux oracle m f (c + 1) (g + 1) (Val.str "Accepted") (some r) := by
  simp [pollAux, ho, hs, isStrv, hc]

theorem pollAux_step_last (oracle : Nat → ReqOutcome) (m f g : Nat)
    (r : HttpResponse) (resp : Option HttpResponse)
    (ho : pangea_get_api (oracle g) = some r)
    (hs : getStatus r = some (Val.str "Accepted")) :
    pollAux oracle m (f + 1) m g (Val.str "Accepted") resp
      = PollOutcome.ret (Val.str "Accepted") (some r) (g + 1) := by
  simp [pollAux, ho, hs, isStrv]

theorem pollAux_step_stop (oracle : Nat → ReqOutcome) (m f c g : Nat)
    (r : HttpResponse) (resp : Option HttpResponse) (v : Val)
    (ho : pangea_get_api (oracle g) = some r) (hs : getStatus r = some v)
    (hv : isStrv "Success" v = true) :
    pollAux oracle m (f + 1) c g (Val.str "Accepted") resp
      = PollOutcome.ret v (some r) (g + 1) := by
  simp [pollAux, ho, hs, hv,
    show isStrv "Accepted" (Val.str "Accepted") = true from rfl]

theorem pollAux_step_fail (oracle : Nat → ReqOutcome) (m f c g : Nat)
    (r : HttpResponse) (resp : Option HttpResponse) (v : Val)
    (ho : pangea_get_api (oracle g) = some r) (hs : getStatus r = some v)
    (hv1 : isStrv "Success" v = false) (hv2 : isStrv "Accepted" v = false) :
    pollAux oracle m (f + 1) c g (Val.str "Accepted") resp
      = PollOutcome.ret v (some r) (g + 1) := by
  simp [pollAux, ho, hs, hv1, hv2,
    show isStrv "Accepted" (Val.str "Accepted") = true from rfl]

theorem pollAux_accepted_reach (oracle : Nat → ReqOutcome) (m : Nat)
    (r : Nat → HttpResponse) :
    ∀ (k : Nat), k + 1 ≤ m →
      (∀ i, i < k → pangea_get_api (oracle i) = some (r i)
        ∧ getStatus (r i) = some (Val.str "Accepted")) →
      ∀ resp, poll_request oracle m
        = pollAux oracle m (m + 1 - k) (k + 1) k (Val.str "Accepted") resp := by
  intro k
  induction k with
  | zero =>
      intro _ _ resp
      rw [Nat.sub_zero]
      exact pollAux_resp_congr oracle m m 1 0 none resp
  | succ k ih =>
      intro h hA resp
      have hk : k + 1 ≤ m := by omega
      rw [ih hk (fun i hi => hA i (by omega)) (some (r k))]
      have hf : m + 1 - k = (m - k - 1) + 1 + 1 := by omega
      have hf' : m + 1 - (k + 1) = (m - k - 1) + 1 := by omega
      rw [hf, hf']
      rw [pollAux_step_cont oracle m ((m - k - 1) + 1) (k + 1) k (r k)
        (some (r k)) (hA k (by omega)).1 (hA k (by omega)).2 (by omega)]
      exact pollAux_resp_congr oracle m (m - k - 1) (k + 2) (k + 1)
        (some (r k)) resp

/-- Claim C3: with `max_attempts = 12` and any response sequence whose
first eleven bodies carry status "Accepted" and whose twelfth carries
"Success", `poll_request` issues exactly twelve GET requests and returns
`("Success", twelfth response)`. -/
theorem claim_C3 (oracle : Nat → ReqOutcome) (r : Nat → HttpResponse)
    (hA : ∀ i, i < 11 → oracle i = ReqOutcome.ok (r i)
      ∧ getStatus (r i) = some (Val.str "Accepted"))
    (h1 : oracle 11 = ReqOutcome.ok (r 11))
    (h2 : getStatus (r 11) = some (Val.str "Success")) :
    poll_request oracle 12
      = PollOutcome.ret (Val.str "Success") (some (r 11)) 12 := by
  have hA' : ∀ i, i < 11 → pangea_get_api (oracle i) = some (r i)
      ∧ getStatus (r i) = some (Val.str "Accepted") :=
    fun i hi => ⟨by rw [(hA i hi).1]; rfl, (hA i hi).2⟩
  rw [pollAux_accepted_reach oracle 12 r 11 (by omega) hA' none]
  exact pollAux_step_stop oracle 12 1 12 11 (r 11) none (Val.str "Success")
    (by rw [h1]; rfl) h2 rfl

/-- Witness for C3: eleven "Accepted" responses then a "Success" one. -/
theorem claim_C3_witness :
    poll_request
      (fun i => ReqOutcome.ok (if i < 11 then acceptedResp else successResp))
      12 = PollOutcome.ret (Val.str "Success") (some successResp) 12 :=
  claim_C3 _ (fun i => if i < 11 then acceptedResp else successResp)
    (fun i hi => ⟨rfl, by
      show getStatus (if i < 11 then acceptedResp else successResp)
        = some (Val.str "Accepted")
      rw [if_pos hi]
      rfl⟩) rfl rfl

/-- Claim C4: for every `max_attempts ≥ 1` and every response sequence all
of whose bodies carry status "Accepted", `poll_request` raises nothing (the
result is a returned pair, neither an exception nor divergence), issues
exactly `max_attempts` GET requests and returns `("Accepted", the last
response received)`. -/
theorem claim_C4 (oracle : Nat → ReqOutcome) (r : Nat → HttpResponse)
    (m : Nat) (hm : 1 ≤ m)
    (ho : ∀ i, oracle i = ReqOutcome.ok (r i))
    (hs : ∀ i, getStatus (r i) = some (Val.str "Accepted")) :
    poll_request oracle m
      = PollOutcome.ret (Val.str "Accepted") (some (r (m - 1))) m := by
  have hA' : ∀ i, i < m - 1 → pangea_get_api (oracle i) = some (r i)
      ∧ getStatus (r i) = some (Val.str "Accepted") :=
    fun i _ => ⟨by rw [ho i]; rfl, hs i⟩
  rw [pollAux_accepted_reach oracle m r (m - 1) (by omega) hA' none]
  have hf : m + 1 - (m - 1) = 1 + 1 := by omega
  have hc : m - 1 + 1 = m := by omega
  rw [hf, hc]
  rw [pollAux_step_last oracle m 1 (m - 1) (r (m - 1)) none
    (by rw [ho (m - 1)]; rfl) (hs (m - 1))]
  rw [hc]

/-- Witness for C4: with `max_attempts = 3` and all-"Accepted" responses,
polling returns `("Accepted", last response)` after three GETs. -/
theorem claim_C4_witness :
    poll_request (fun _ => ReqOutcome.ok acceptedResp) 3
      = PollOutcome.ret (Val.str "Accepted") (some acceptedResp) 3 :=
  claim_C4 _ (fun _ => acceptedResp) 3 (by omega) (fun _ => rfl) (fun _ => rfl)

/-- Claim C5: if the first response's body carries a status string that is
neither "Accepted" nor "Success", `poll_request` issues exactly one GET
request and returns that status paired with that response (for every
`max_attempts`). -/
theorem claim_C5 (oracle : Nat → ReqOutcome) (r0 : HttpResponse) (s : String)
    (m : Nat) (h1 : oracle 0 = ReqOutcome.ok r0)
    (h2 : getStatus r0 = some (Val.str s))
    (h3 : s ≠ "Accepted") (h4 : s ≠ "Success") :
    poll_request oracle m = PollOutcome.ret (Val.str s) (some r0) 1 :=
  pollAux_step_fail oracle m m 1 0 r0 none (Val.str s) (by rw [h1]; rfl) h2
    (by simp [isStrv, h4]) (by simp [isStrv, h3])

/-- Witness for C5: a first response with status "Failed" stops polling at
once, for the default `max_attempts = 12`. -/
theorem claim_C5_witness :
    poll_request (fun _ => ReqOutcome.ok failedResp) 12
      = PollOutcome.ret (Val.str "Failed") (some failedResp) 1 :=
  claim_C5 _ failedResp "Failed" 12 rfl rfl (by decide) (by decide)

theorem pollAux_bound (oracle : Nat → ReqOutcome) (m : Nat) :
    ∀ (fuel c g : Nat) (status : Val) (resp : Option HttpResponse),
      c ≤ m → m + 2 ≤ fuel + c →
      pollGets (pollAux oracle m fuel c g status resp) ≤ g + (m + 1 - c)
      ∧ isDiverge (pollAux oracle m fuel c g status resp) = false := by
  intro fuel
  induction fuel with
  | zero => intro c g status resp h1 h2; omega
  | succ f ih =>
      intro c g status resp h1 h2
      by_cases hA : isStrv "Accepted" status = true
      · cases hog : pangea_get_api (oracle g) with
        | none =>
            have hr : pollAux oracle m (f + 1) c g status resp
                = PollOutcome.ret status none (g + 1) := by
              simp [pollAux, hA, hog]
            rw [hr]
            exact ⟨by simp only [pollGets]; omega, rfl⟩
        | some r =>
            cases hgs : getStatus r with
            | none =>
                have hr : pollAux oracle m (f + 1) c g status resp
                    = PollOutcome.exc (g + 1) := by
                  simp [pollAux, hA, hog, hgs]
                rw [hr]
                exact ⟨by simp only [pollGets]; omega, rfl⟩
            | some s =>
                by_cases hsv : isStrv "Success" s = true
                · have hr : pollAux oracle m (f + 1) c g status resp
                      = PollOutcome.ret s (some r) (g + 1) := by
                    simp [pollAux, hA, hog, hgs, hsv]
                  rw [hr]
                  exact ⟨by simp only [pollGets]; omega, rfl⟩
                · by_cases hav : isStrv "Accepted" s = true
                  · by_cases hcm : c = m
                    · have hr : pollAux oracle m (f + 1) c g status resp
                          = PollOutcome.ret s (some r) (g + 1) := by
                        simp [pollAux, hA, hog, hgs, hsv, hav, hcm]
                      rw [hr]
                      exact ⟨by simp only [pollGets]; omega, rfl⟩
                    · have hr : pollAux oracle m (f + 1) c g status resp
                          = pollAux oracle m f (c + 1) (g + 1) s (some r) := by
                        simp [pollAux, hA, hog, hgs, hsv, hav, hcm]
                      rw [hr]
                      obtain ⟨b1, b2⟩ := ih (c + 1) (g + 1) s (some r)
                        (by omega) (by omega)
                      exact ⟨by omega, b2⟩
                  · have hr : pollAux oracle m (f + 1) c g status resp
                        = PollOutcome.ret s (some r) (g + 1) := by
                      simp [pollAux, hA, hog, hgs, hsv, hav]
                    rw [hr]
                    exact ⟨by simp only [pollGets]; omega, rfl⟩
      · have hr : pollAux oracle m (f + 1) c g status resp
            = PollOutcome.ret status resp g := by
          simp [pollAux, hA]
        rw [hr]
        exact ⟨by simp only [pollGets]; omega, rfl⟩

/-- Claim C8: for every `max_attempts ≥ 1` and every (possibly infinite)
sequence of GET outcomes, `poll_request` terminates — its fueled run never
exhausts fuel — after issuing at most `max_attempts` GET requests. -/
theorem claim_C8 (oracle : Nat → ReqOutcome) (m : Nat) (hm : 1 ≤ m) :
    pollGets (poll_request oracle m) ≤ m
    ∧ isDiverge (poll_request oracle m) = false := by
  have h := pollAux_bound oracle m (m + 1) 1 0 (Val.str "Accepted") none
    (by omega) (by omega)
  constructor
  · have h1 := h.1
    unfold poll_request
    omega
  · exact h.2

/-- Witness for C8: two all-"Accepted" attempts with `max_attempts = 2`. -/
theorem claim_C8_witness :
    pollGets (poll_request (fun _ => ReqOutcome.ok acceptedResp) 2) ≤ 2
    ∧ isDiverge (poll_request (fun _ => ReqOutcome.ok acceptedResp) 2)
      = false :=
  claim_C8 _ 2 (by omega)

/-- Claim C9: if the GET of attempt `k + 1` (after `k` "Accepted" answers,
`k < max_attempts`) raises a network timeout or another request-level
failure, `poll_request` stops on that attempt and returns, as its status
value, the integer 408 (resp. 400) read from the synthesized error body —
an integer, never equal to the strings "Accepted" or "Success" — paired
with the synthesized response. -/
theorem claim_C9 (oracle : Nat → ReqOutcome) (r : Nat → HttpResponse)
    (k m : Nat)
    (hA : ∀ i, i < k → oracle i = ReqOutcome.ok (r i)
      ∧ getStatus (r i) = some (Val.str "Accepted"))
    (hk : k < m) :
    (oracle k = ReqOutcome.timeout →
      poll_request oracle m = PollOutcome.ret (Val.int 408)
        (some (create_error_response 408 "Request Timeout")) (k + 1))
    ∧ (∀ e, oracle k = ReqOutcome.reqError e →
      poll_request oracle m = PollOutcome.ret (Val.int 400)
        (some (create_error_response 400 ("Bad Request: " ++ e))) (k + 1))
    ∧ Val.int 408 ≠ Val.str "Accepted" ∧ Val.int 408 ≠ Val.str "Success"
    ∧ Val.int 400 ≠ Val.str "Accepted"
    ∧ Val.int 400 ≠ Val.str "Success" := by
  have hA' : ∀ i, i < k → pangea_get_api (oracle i) = some (r i)
      ∧ getStatus (r i) = some (Val.str "Accepted") :=
    fun i hi => ⟨by rw [(hA i hi).1]; rfl, (hA i hi).2⟩
  have hf : m + 1 - k = (m - k - 1) + 1 + 1 := by omega
  refine ⟨?_, ?_, fun h => Val.noConfusion h, fun h => Val.noConfusion h,
    fun h => Val.noConfusion h, fun h => Val.noConfusion h⟩
  · intro ht
    rw [pollAux_accepted_reach oracle m r k (by omega) hA' none, hf]
    exact pollAux_step_fail oracle m ((m - k - 1) + 1) (k + 1) k
      (create_error_response 408 "Request Timeout") none (Val.int 408)
      (by rw [ht]; rfl) rfl rfl rfl
  · intro e ht
    rw [pollAux_accepted_reach oracle m r k (by omega) hA' none, hf]
    exact pollAux_step_fail oracle m ((m - k - 1) + 1) (k + 1) k
      (create_error_response 400 ("Bad Request: " ++ e)) none (Val.int 400)
      (by rw [ht]; rfl) rfl rfl rfl

/-- Witness for C9: a timeout (resp. a connection error) on the very first
attempt returns the integer status 408 (resp. 400) with the synthesized
response after one GET. -/
theorem claim_C9_witness :
    poll_request (fun _ => ReqOutcome.timeout) 5
      = PollOutcome.ret (Val.int 408)
        (some (create_error_response 408 "Request Timeout")) 1
    ∧ poll_request (fun _ => ReqOutcome.reqError "boom") 5
      = PollOutcome.ret (Val.int 400)
        (some (create_error_response 400 ("Bad Request: " ++ "boom"))) 1 :=
  ⟨(claim_C9 (fun _ => ReqOutcome.timeout) (fun _ => acceptedResp) 0 5
      (fun i hi => absurd hi (Nat.not_lt_zero i)) (by omega)).1 rfl,
   ((claim_C9 (fun _ => ReqOutcome.reqError "boom") (fun _ => acceptedResp)
      0 5 (fun i hi => absurd hi (Nat.not_lt_zero i)) (by omega)).2).1
      "boom" rfl⟩

/-! ## Heap lemmas for the `DEFAULT_AIDR_METADATA` mutation claim -/

theorem getAddr_setAddr_ne (l : List (Nat × HDict)) (a b : Nat) (d : HDict)
    (hne : a ≠ b) : getAddr (setAddr l b d) a = getAddr l a := by
  induction l with
  | nil => rfl
  | cons p t ih =>
      obtain ⟨b0, d0⟩ := p
      by_cases ha : b0 = a
      · have hb : ¬b0 = b := by rw [ha]; exact hne
        simp [setAddr, getAddr, hb, ha, hne]
      · by_cases hb : b0 = b
        · subst hb
          simp [setAddr, getAddr, ha, ih]
        · simp [setAddr, getAddr, ha, hb, ih]

theorem getAddr_setAddr_self_or (l : List (Nat × HDict)) (b : Nat) (d : HDict) :
    getAddr (setAddr l b d) b = d ∨ getAddr (setAddr l b d) b = getAddr l b := by
  induction l with
  | nil => exact Or.inr rfl
  | cons p t ih =>
      obtain ⟨b0, d0⟩ := p
      by_cases hb : b0 = b
      · subst hb
        left
        simp [setAddr, getAddr]
      · rcases ih with ih | ih
        · left
          simpa [setAddr, getAddr, hb] using ih
        · right
          simp [setAddr, getAddr, hb, ih]

theorem getAddr_append_single_ne (l : List (Nat × HDict)) (n : Nat) (d : HDict)
    (a : Nat) (hne : a ≠ n) : getAddr (l ++ [(n, d)]) a = getAddr l a := by
  have hna : ¬n = a := fun hh => hne hh.symm
  induction l with
  | nil => simp [getAddr, hna]
  | cons p t ih =>
      obtain ⟨b0, d0⟩ := p
      by_cases hb : b0 = a
      · simp [getAddr, hb]
      · simp [getAddr, hb, ih]

theorem getAddr_setAddr_self (l : List (Nat × HDict)) (b : Nat) (d : HDict)
    (h : hasAddr l b = true) : getAddr (setAddr l b d) b = d := by
  induction l with
  | nil => cases h
  | cons p t ih =>
      obtain ⟨b0, d0⟩ := p
      by_cases hb : b0 = b
      · simp [setAddr, getAddr, hb]
      · have h' : hasAddr t b = true := by
          simpa [hasAddr, hb] using h
        simp [setAddr, getAddr, hb, ih h']

theorem hasAddr_append_right (l : List (Nat × HDict)) (n : Nat) (d : HDict) :
    hasAddr (l ++ [(n, d)]) n = true := by
  induction l with
  | nil => simp [hasAddr]
  | cons p t ih =>
      obtain ⟨b0, d0⟩ := p
      by_cases hb : b0 = n <;> simp [hasAddr, hb, ih]

theorem hasAddr_append_of (l l2 : List (Nat × HDict)) (a : Nat)
    (h : hasAddr l a = true) : hasAddr (l ++ l2) a = true := by
  induction l with
  | nil => cases h
  | cons p t ih =>
      obtain ⟨b0, d0⟩ := p
      by_cases hb : b0 = a
      · simp [hasAddr, hb]
      · have h' : hasAddr t a = true := by
          simpa [hasAddr, hb] using h
        simp [hasAddr, hb, ih h']

theorem Heap.get_alloc_ne (h : Heap) (d : HDict) (a : Nat) (hne : a ≠ h.next) :
    (h.alloc d).1.get a = h.get a :=
  getAddr_append_single_ne h.store h.next d a hne

theorem Heap.get_set_ne (h : Heap) (b : Nat) (d : HDict) (a : Nat)
    (hne : a ≠ b) : (h.set b d).get a = h.get a :=
  getAddr_setAddr_ne h.store a b d hne

theorem Heap.get_set_self_or (h : Heap) (b : Nat) (d : HDict) :
    (h.set b d).get b = d ∨ (h.set b d).get b = h.get b :=
  getAddr_setAddr_self_or h.store b d

theorem applyConfigEntry_cases (mAddr : Nat) (h : Heap) (kv : String × HVal) :
    applyConfigEntry mAddr h kv = h
    ∨ (∃ t src, dictLookup (h.get mAddr) "extra_info" = some (HVal.ref t)
        ∧ applyConfigEntry mAddr h kv
          = h.set t (dictUpdate (h.get t) (h.get src)))
    ∨ (applyConfigEntry mAddr h kv
        = h.set mAddr (dictSet (h.get mAddr) kv.1 kv.2)
      ∧ (kv.1 ≠ "extra_info" ∨ isDictVal kv.2 = false)) := by
  unfold applyConfigEntry
  by_cases hb : kv.1 = "extra_info" ∧ isDictVal kv.2 = true
  · rw [if_pos hb]
    split
    · rename_i t src heq1 _
      exact Or.inr (Or.inl ⟨t, src, heq1, rfl⟩)
    · exact Or.inl rfl
  · rw [if_neg hb]
    refine Or.inr (Or.inr ⟨rfl, ?_⟩)
    rcases not_and_or.mp hb with hk | hd
    · exact Or.inl hk
    · exact Or.inr (by
        cases hdd : isDictVal kv.2
        · rfl
        · exact absurd hdd hd)

theorem applyConfigEntry_frame (mAddr ec : Nat) (hme : mAddr ≠ ec) (h : Heap)
    (kv : String × HVal)
    (hinv : ∀ a, dictLookup (h.get mAddr) "extra_info" = some (HVal.ref a)
      → a = ec) :
    (∀ b, b ≠ mAddr → b ≠ ec → (applyConfigEntry mAddr h kv).get b = h.get b)
    ∧ (∀ a, dictLookup ((applyConfigEntry mAddr h kv).get mAddr) "extra_info"
        = some (HVal.ref a) → a = ec) := by
  rcases applyConfigEntry_cases mAddr h kv with hc | ⟨t, src, hl, hc⟩ |
    ⟨hc, hor⟩
  · constructor
    · intro b _ _
      rw [hc]
    · intro a ha
      rw [hc] at ha
      exact hinv a ha
  · have ht : t = ec := hinv t hl
    subst ht
    constructor
    · intro b _ hb2
      rw [hc]
      exact Heap.get_set_ne h t _ b hb2
    · intro a ha
      rw [hc, Heap.get_set_ne h t _ mAddr hme] at ha
      exact hinv a ha
  · constructor
    · intro b hb1 _
      rw [hc]
      exact Heap.get_set_ne h mAddr _ b hb1
    · intro a ha
      rw [hc] at ha
      rcases Heap.get_set_self_or h mAddr (dictSet (h.get mAddr) kv.1 kv.2)
        with hs | hs
      · rw [hs] at ha
        rcases hor with hk | hd
        · rw [dictLookup_dictSet_ne (h.get mAddr) kv.1 "extra_info" kv.2
            (fun hh => hk hh.symm)] at ha
          exact hinv a ha
        · by_cases hk : kv.1 = "extra_info"
          · rw [hk, dictLookup_dictSet_self] at ha
            have : kv.2 = HVal.ref a := Option.some.inj ha
            rw [this] at hd
            cases hd
          · rw [dictLookup_dictSet_ne (h.get mAddr) kv.1 "extra_info" kv.2
              (fun hh => hk hh.symm)] at ha
            exact hinv a ha
      · rw [hs] at ha
        exact hinv a ha

theorem applyConfig_frame (mAddr ec : Nat) (hme : mAddr ≠ ec) :
    ∀ (entries : List (String × HVal)) (h : Heap),
      (∀ a, dictLookup (h.get mAddr) "extra_info" = some (HVal.ref a)
        → a = ec) →
      ∀ b, b ≠ mAddr → b ≠ ec →
        (entries.foldl (applyConfigEntry mAddr) h).get b = h.get b := by
  intro entries
  induction entries with
  | nil => intro h _ b _ _; rfl
  | cons kv t ih =>
      intro h hinv b hb1 hb2
      obtain ⟨hfr, hinv'⟩ := applyConfigEntry_frame mAddr ec hme h kv hinv
      show (t.foldl (applyConfigEntry mAddr) (applyConfigEntry mAddr h kv)).get b
        = h.get b
      rw [ih _ hinv' b hb1 hb2, hfr b hb1 hb2]

theorem insertFold_frame (dataAddr : Nat) :
    ∀ (entries : List (String × HVal)) (h : Heap) (b : Nat), b ≠ dataAddr →
      (entries.foldl (fun h kv =>
        if dictHasKey (h.get dataAddr) kv.1 then h
        else h.set dataAddr (dictSet (h.get dataAddr) kv.1 kv.2)) h).get b
      = h.get b := by
  intro entries
  induction entries with
  | nil => intro h b _; rfl
  | cons kv t ih =>
      intro h b hb
      show (t.foldl _ (if dictHasKey (h.get dataAddr) kv.1 then h
        else h.set dataAddr (dictSet (h.get dataAddr) kv.1 kv.2))).get b = h.get b
      rw [ih _ b hb]
      by_cases hk : dictHasKey (h.get dataAddr) kv.1 = true
      · rw [if_pos hk]
      · rw [if_neg hk]
        exact Heap.get_set_ne h dataAddr _ b hb

/-- Amended claim C10: `merge_aidr_metadata` leaves both the module-level
`DEFAULT_AIDR_METADATA` object (address 0) and its nested `extra_info`
object (address 1) unchanged, and the value it returns is the caller's
`data` object itself, mutated in place — provided `data` is a caller-owned
object (address ≥ 2), i.e. not `DEFAULT_AIDR_METADATA` or its nested
`extra_info` themselves.  The override dict may be any object, even the
default itself, since it is only read. -/
theorem claim_C10 (username : String) (objs : List HDict) (i : Nat)
    (cfg : Option Nat) (hi : i < objs.length) :
    ∃ h' : Heap,
      merge_aidr_metadata_heap (standardHeap username objs) (2 + i) cfg
        = some (h', 2 + i)
      ∧ h'.get 0 = defaultTopHDict
      ∧ h'.get 1 = defaultExtraHDict username := by
  have hmA : ((standardHeap username objs).alloc ((standardHeap username objs).get 0)).2 = 2 + objs.length := rfl
  have hec : (((standardHeap username objs).alloc ((standardHeap username objs).get 0)).1.alloc (((standardHeap username objs).alloc ((standardHeap username objs).get 0)).1.get 1)).2 = 2 + objs.length + 1 := rfl
  have hset : ∀ (b : Nat) (d2 : HDict), b ≠ 2 + objs.length →
      b ≠ 2 + objs.length + 1 →
      ((((standardHeap username objs).alloc ((standardHeap username objs).get 0)).1.alloc (((standardHeap username objs).alloc ((standardHeap username objs).get 0)).1.get 1)).1.set (2 + objs.length) d2).get b = (standardHeap username objs).get b := by
    intro b d2 hb1 hb2
    rw [Heap.get_set_ne _ _ _ b hb1,
      Heap.get_alloc_ne _ _ b (show b ≠ ((standardHeap username objs).alloc ((standardHeap username objs).get 0)).1.next from hb2),
      Heap.get_alloc_ne _ _ b (show b ≠ (standardHeap username objs).next from hb1)]
  have hhas : hasAddr (((standardHeap username objs).alloc ((standardHeap username objs).get 0)).1.alloc (((standardHeap username objs).alloc ((standardHeap username objs).get 0)).1.get 1)).1.store (2 + objs.length) = true :=
    hasAddr_append_of _ _ _ (hasAddr_append_right (standardHeap username objs).store
      (2 + objs.length) ((standardHeap username objs).get 0))
  have hg3mA : ((((standardHeap username objs).alloc ((standardHeap username objs).get 0)).1.alloc (((standardHeap username objs).alloc ((standardHeap username objs).get 0)).1.get 1)).1.set (2 + objs.length) (dictSet ((((standardHeap username objs).alloc ((standardHeap username objs).get 0)).1.alloc (((standardHeap username objs).alloc ((standardHeap username objs).get 0)).1.get 1)).1.get (2 + objs.length)) "extra_info" (HVal.ref (2 + objs.length + 1)))).get (2 + objs.length) = (dictSet ((((standardHeap username objs).alloc ((standardHeap username objs).get 0)).1.alloc (((standardHeap username objs).alloc ((standardHeap username objs).get 0)).1.get 1)).1.get (2 + objs.length)) "extra_info" (HVal.ref (2 + objs.length + 1))) :=
    getAddr_setAddr_self _ _ _ hhas
  have hinv : ∀ a, dictLookup (((((standardHeap username objs).alloc ((standardHeap username objs).get 0)).1.alloc (((standardHeap username objs).alloc ((standardHeap username objs).get 0)).1.get 1)).1.set (2 + objs.length) (dictSet ((((standardHeap username objs).alloc ((standardHeap username objs).get 0)).1.alloc (((standardHeap username objs).alloc ((standardHeap username objs).get 0)).1.get 1)).1.get (2 + objs.length)) "extra_info" (HVal.ref (2 + objs.length + 1)))).get (2 + objs.length)) "extra_info"
      = some (HVal.ref a) → a = 2 + objs.length + 1 := by
    intro a ha
    rw [hg3mA, dictLookup_dictSet_self] at ha
    exact (HVal.ref.inj (Option.some.inj ha)).symm
  cases cfg with
  | none =>
      refine ⟨_, rfl, ?_, ?_⟩
      · rw [hmA, hec, insertFold_frame (2 + i) _ _ 0 (by omega),
          hset 0 _ (by omega) (by omega)]
        rfl
      · rw [hmA, hec, insertFold_frame (2 + i) _ _ 1 (by omega),
          hset 1 _ (by omega) (by omega)]
        rfl
  | some cfgAddr =>
      refine ⟨_, rfl, ?_, ?_⟩
      · rw [hmA, hec, insertFold_frame (2 + i) _ _ 0 (by omega)]
        split
        · rw [hset 0 _ (by omega) (by omega)]
          rfl
        · split
          · rw [hset 0 _ (by omega) (by omega)]
            rfl
          · rw [applyConfig_frame (2 + objs.length) (2 + objs.length + 1)
              (by omega) _ _ hinv 0 (by omega) (by omega),
              hset 0 _ (by omega) (by omega)]
            rfl
      · rw [hmA, hec, insertFold_frame (2 + i) _ _ 1 (by omega)]
        split
        · rw [hset 1 _ (by omega) (by omega)]
          rfl
        · split
          · rw [hset 1 _ (by omega) (by omega)]
            rfl
          · rw [applyConfig_frame (2 + objs.length) (2 + objs.length + 1)
              (by omega) _ _ hinv 1 (by omega) (by omega),
              hset 1 _ (by omega) (by omega)]
            rfl

/-- Counterexample to claim C10 as stated: `merge_aidr_metadata` CAN mutate
the module default when the caller passes one of the default's own dict
objects as `data`.  Concretely, calling it with `data` being
`DEFAULT_AIDR_METADATA["extra_info"]` itself (heap address 1) and no
override inserts the missing top-level default keys into that nested
`extra_info` object: afterwards it carries the key `event_type`, which it
did not carry before the call. -/
theorem claim_C10_counterexample :
    ((merge_aidr_metadata_heap (standardHeap "alice" []) 1 none).map
      (fun p => dictHasKey (p.1.get 1) "event_type")) = some true
    ∧ dictHasKey ((standardHeap "alice" []).get 1) "event_type" = false := by
  decide

/-- Witness for the amended C10: a caller-owned `data` dict at address 2,
no override. -/
theorem claim_C10_witness :
    ∃ h' : Heap,
      merge_aidr_metadata_heap
        (standardHeap "alice" [[("msg", HVal.str "hi")]]) (2 + 0) none
        = some (h', 2 + 0)
      ∧ h'.get 0 = defaultTopHDict
      ∧ h'.get 1 = defaultExtraHDict "alice" :=
  claim_C10 "alice" [[("msg", HVal.str "hi")]] 0 none (by decide)
